import Mathlib

/-!
Verification of the autoscaling simulation engine (`backend/scalingLogic.js`).

The JavaScript code is shallowly embedded in Lean 4.  JavaScript numbers are
modelled as rationals (`ℚ`): every arithmetic operation appearing in the code
(addition, multiplication, division, `Math.floor`, `Math.ceil`, `Math.min`,
`Math.max`, `%`) is exact on the values the engine manipulates, and the `NaN`
produced by `parseInt` on malformed strings is modelled by `Option` (`none`).
`Math.sin(2·π·x / y)` is modelled by an uninterpreted parameter
`sin2pi : ℚ → ℚ → ℚ` (applied as `sin2pi x y`), and each `Math.random()` draw
is an explicit parameter, so theorems quantify over every outcome.
Division by zero yields `0` in `ℚ` where JavaScript would produce
`±Infinity`/`NaN`; all claims about divisions are stated under the positivity
hypotheses that rule that corner out.
-/

/-- Truncation toward zero, the rounding used by the JavaScript `%` operator. -/
def ratTrunc (q : ℚ) : ℤ := if 0 ≤ q then ⌊q⌋ else ⌈q⌉

/-- The JavaScript remainder operator `a % b` (sign follows the dividend).
Faithful for every nonzero divisor; at `b = 0` this returns `a` (since
`a / 0 = 0` in `ℚ`) where JavaScript yields `NaN`, so every theorem about a
computation that reaches `%` with a profile-supplied divisor carries a
nonzero-divisor hypothesis. -/
def jsMod (a b : ℚ) : ℚ := a - b * (ratTrunc (a / b) : ℚ)

/-- Whitespace skipped by JavaScript `parseInt` (the common ASCII cases). -/
def isJsSpace (c : Char) : Bool :=
  c = ' ' ∨ c = '\t' ∨ c = '\n' ∨ c = '\r' ∨ c.toNat = 11 ∨ c.toNat = 12

/-- Decimal digit test, by code point. -/
def isDecDigit (c : Char) : Bool := 48 ≤ c.toNat ∧ c.toNat ≤ 57

/-- Hexadecimal digit test, by code point. -/
def isHexDigit (c : Char) : Bool :=
  isDecDigit c ∨ (97 ≤ c.toNat ∧ c.toNat ≤ 102) ∨ (65 ≤ c.toNat ∧ c.toNat ≤ 70)

/-- Numeric value of a digit character. -/
def digitVal (c : Char) : ℕ :=
  if 97 ≤ c.toNat then c.toNat - 87
  else if 65 ≤ c.toNat then c.toNat - 55
  else c.toNat - 48

/-- Value of a list of decimal digits. -/
def decimalVal (ds : List Char) : ℕ := ds.foldl (fun a c => 10 * a + digitVal c) 0

/-- Value of a list of hexadecimal digits. -/
def hexVal (ds : List Char) : ℕ := ds.foldl (fun a c => 16 * a + digitVal c) 0

/-- Does the character stream start with a `0x` / `0X` radix marker? -/
def hexStart (cs : List Char) : Bool :=
  match cs with
  | c0 :: c1 :: _ => c0 = '0' ∧ (c1 = 'x' ∨ c1 = 'X')
  | _ => false

/-- Digit scan of JavaScript `parseInt` after whitespace and sign have been
consumed: an optional `0x`/`0X` marker selects radix 16, otherwise the longest
decimal-digit run is taken; an empty run yields `NaN` (`none`). -/
def parseIntFrom (sign : ℤ) (cs : List Char) : Option ℤ :=
  if hexStart cs then
    let ds := (cs.drop 2).takeWhile isHexDigit
    if ds.isEmpty then none else some (sign * (hexVal ds : ℤ))
  else
    let ds := cs.takeWhile isDecDigit
    if ds.isEmpty then none else some (sign * (decimalVal ds : ℤ))

/-- JavaScript `parseInt(s)` (radix argument omitted) on a character list:
skip whitespace, read an optional sign, then scan digits.  `none` is `NaN`. -/
def jsParseIntList (cs : List Char) : Option ℤ :=
  match cs.dropWhile isJsSpace with
  | [] => none
  | c :: r =>
    if c = '+' then parseIntFrom 1 r
    else if c = '-' then parseIntFrom (-1) r
    else parseIntFrom 1 (c :: r)

/-- JavaScript `parseInt(s)` on a string. -/
def jsParseInt (s : String) : Option ℤ := jsParseIntList s.data

/-- JavaScript `String.prototype.endsWith`: the final characters of `s` equal
`suf` (stated via `drop`, which agrees with the suffix test for every length). -/
def jsEndsWith (s suf : List Char) : Bool :=
  decide (s.drop (s.length - suf.length) = suf)

/-- `parseCPU` from `scalingLogic.js`: `parseInt` the string; a trailing `m`
means the value is already millicores, otherwise multiply cores by 1000.
`none` models the `NaN` that `parseInt` yields on malformed input (JavaScript
then propagates `NaN` through the multiplication as well). -/
def parseCPU (cpuStr : String) : Option ℤ :=
  match jsParseInt cpuStr with
  | none => none
  | some value =>
    if jsEndsWith cpuStr.data "m".data then some value
    else some (value * 1000)

/-- `parseMemory` from `scalingLogic.js`: `parseInt` the string; `Gi` scales by
1024, `Mi` (and any other suffix) leaves the value as MiB.  `none` models `NaN`. -/
def parseMemory (memoryStr : String) : Option ℤ :=
  match jsParseInt memoryStr with
  | none => none
  | some value =>
    if jsEndsWith memoryStr.data "Gi".data then some (value * 1024)
    else if jsEndsWith memoryStr.data "Mi".data then some value
    else some value

/-! ## Data model -/

/-- Per-user-type resource multipliers (an entry of `userPatterns`). -/
structure LoadMult where
  cpu : ℚ
  memory : ℚ
deriving DecidableEq

/-- The `userPatterns` table.  JavaScript objects with exactly the keys
`light`/`medium`/`heavy` are modelled; a lookup of any other user type falls
back to `medium`, as `patterns[userType] || patterns.medium` does. -/
structure UserPatterns where
  light : LoadMult
  medium : LoadMult
  heavy : LoadMult
deriving DecidableEq

/-- `config.userResources`: baseline percentage figures. -/
structure UserResources where
  cpu : ℚ
  memory : ℚ
deriving DecidableEq

/-- `config.defaultLoadProfile`.  `spikeProbability`, `spikeMultiplier` and
`initialUsers` are `Option`s because the JavaScript destructuring supplies
defaults (`0.1`, `2.0`, `baseLoad`) when the properties are absent. -/
structure LoadProfile where
  pattern : String
  baseLoad : ℚ
  amplitude : ℚ
  period : ℚ
  spikeProbability : Option ℚ
  spikeMultiplier : Option ℚ
  maxUsers : ℚ
  userGrowthRate : ℚ
  initialUsers : Option ℚ
deriving DecidableEq

/-- The runtime configuration object consumed by the engine. -/
structure RuntimeConfig where
  userPatterns : Option UserPatterns
  userResources : Option UserResources
  defaultLoadProfile : LoadProfile
  cpuThreshold : ℚ
  memoryThreshold : ℚ
  minReplicas : ℚ
  maxReplicas : ℚ
  podResources : ℚ
deriving DecidableEq

/-- A synthetic user session.  The constructor sets both timestamps to the
creation instant and leaves `podName` absent (`none`). -/
structure UserSession where
  id : String
  type : String
  startTime : ℚ
  lastActivity : ℚ
  podName : Option String
deriving DecidableEq

/-- A pod descriptor: `name`, the `resources.limits.{cpu,memory}` strings, and
the optional previous-cycle `metrics.cpu` reading. -/
structure Pod where
  name : String
  limitsCpu : String
  limitsMemory : String
  metricsCpu : Option ℚ
deriving DecidableEq

/-! ## Resource estimation -/

/-- `generateUserLoad`: look up the per-type multipliers, falling back to the
built-in table when `runtimeConfig.userPatterns` is absent and to the `medium`
entry for unrecognized user types. -/
def generateUserLoad (userType : String) (runtimeConfig : RuntimeConfig) : LoadMult :=
  let patterns := runtimeConfig.userPatterns.getD ⟨⟨0.1, 0.7⟩, ⟨0.5, 1.0⟩, ⟨0.8, 1.5⟩⟩
  if userType = "light" then patterns.light
  else if userType = "medium" then patterns.medium
  else if userType = "heavy" then patterns.heavy
  else patterns.medium

/-- Estimated cpu (millicores) and memory (MiB) consumption of a user list. -/
structure ResourceUsage where
  cpu : ℚ
  memory : ℚ
deriving DecidableEq

/-- `calculateResourcesForUsers`: absent `config.userResources` yields zero;
otherwise sum the per-user baseline usage scaled by the type multipliers. -/
def calculateResourcesForUsers (users : List UserSession) (config : RuntimeConfig) :
    ResourceUsage :=
  match config.userResources with
  | none => ⟨0, 0⟩
  | some ur =>
    users.foldl
      (fun total user =>
        let userLoad := generateUserLoad user.type config
        let cpuUsage := ur.cpu / 100 * 1000
        let memoryUsage := ur.memory / 100 * 1024
        ⟨total.cpu + cpuUsage * userLoad.cpu, total.memory + memoryUsage * userLoad.memory⟩)
      ⟨0, 0⟩

/-- The unclamped diagnostics quadruple returned by `simulatePodUsage`.
The limits are `Option ℤ` because a malformed limit string parses to `NaN`. -/
structure RawMetrics where
  cpu : ℚ
  memory : ℚ
  cpuLimit : Option ℤ
  memoryLimit : Option ℤ
deriving DecidableEq

/-- The record returned by `simulatePodUsage`.  A percentage is `none` when the
corresponding limit parsed to `NaN` (the JavaScript value would be `NaN` too);
`rawMetrics` is `none` in the degenerate early-return case, which omits it. -/
structure PodUsage where
  cpu : Option ℚ
  memory : Option ℚ
  podName : String
  timestamp : String
  activeUsers : ℕ
  rawMetrics : Option RawMetrics
deriving DecidableEq

/-- The users currently assigned to `pod` (strict equality with `pod.name`;
an absent `podName` compares unequal, as `undefined === name` does). -/
def podUsersOf (pod : Pod) (users : List UserSession) : List UserSession :=
  users.filter fun u => u.podName = some pod.name

/-- `simulatePodUsage`: missing `config.userResources` yields the zeroed early
return (without `rawMetrics`); otherwise compute usage of the assigned users,
parse the pod limits, and clamp each percentage `usage/limit×100` to `[0,100]`.
`now` stands for the wall-clock ISO timestamp the JavaScript embeds.
In `ℚ` a division by a zero limit yields `0` where JavaScript would produce
`±Infinity`/`NaN`; the claims about this function assume positive limits. -/
def simulatePodUsage (pod : Pod) (users : List UserSession) (config : RuntimeConfig)
    (now : String) : PodUsage :=
  match config.userResources with
  | none => ⟨some 0, some 0, pod.name, now, 0, none⟩
  | some _ =>
    let podUsers := podUsersOf pod users
    let userResources := calculateResourcesForUsers podUsers config
    let cpuLimit := parseCPU pod.limitsCpu
    let memoryLimit := parseMemory pod.limitsMemory
    ⟨cpuLimit.map (fun l => min 100 (max 0 (userResources.cpu / (l : ℚ) * 100))),
     memoryLimit.map (fun l => min 100 (max 0 (userResources.memory / (l : ℚ) * 100))),
     pod.name, now, podUsers.length,
     some ⟨userResources.cpu, userResources.memory, cpuLimit, memoryLimit⟩⟩

/-! ## User distribution -/

/-- The load-balancing key: `pod.metrics?.cpu || 0`. -/
def podSortKey (p : Pod) : ℚ := p.metricsCpu.getD 0

/-- The pods sorted ascending by `podSortKey`, ties keeping input order.
JavaScript `Array.prototype.sort` is stable, and a stable ascending sort is
uniquely determined, so the stable `insertionSort` models it exactly. -/
def sortPodsByCpu (pods : List Pod) : List Pod :=
  pods.insertionSort fun a b => podSortKey a ≤ podSortKey b

/-- One pass of the `users.forEach((user, index) => ...)` assignment loop,
starting at index `i`: the user at index `i` gets the name of the sorted pod
at index `i / cap` when that exists, and keeps its (cleared) assignment
otherwise. -/
def assignFrom (sorted : List Pod) (cap : ℕ) : ℕ → List UserSession → List UserSession
  | _, [] => []
  | i, u :: rest =>
    (match sorted[i / cap]? with
     | some p => ⟨u.id, u.type, u.startTime, u.lastActivity, some p.name⟩
     | none => u) :: assignFrom sorted cap (i + 1) rest

/-- `distributeUsers`: with no pods, delete every assignment; otherwise clear
all assignments, sort pods by observed cpu, and assign the user at index `i`
to sorted pod `⌊i / (⌊users/pods⌋ + 1)⌋` when in range. -/
def distributeUsers (users : List UserSession) (pods : List Pod) : List UserSession :=
  if pods.isEmpty then
    users.map fun u => ⟨u.id, u.type, u.startTime, u.lastActivity, none⟩
  else
    let cleared := users.map fun u => ⟨u.id, u.type, u.startTime, u.lastActivity, none⟩
    let sortedPods := sortPodsByCpu pods
    let maxUsersPerPod := users.length / pods.length + 1
    assignFrom sortedPods maxUsersPerPod 0 cleared

/-! ## Scaling decision -/

/-- `scaleReplicas`: desired count from cpu and memory pressure, clamped by the
configured bounds.  The `totalUsers` argument is accepted and ignored, and the
`podResources` config field is bound but unused, exactly as in the source. -/
def scaleReplicas (currentReplicas avgCpu avgMemory totalUsers : ℚ)
    (config : RuntimeConfig) : ℚ :=
  let cpuDesiredReplicas : ℤ := ⌈currentReplicas * (avgCpu / config.cpuThreshold)⌉
  let memoryDesiredReplicas : ℤ := ⌈currentReplicas * (avgMemory / config.memoryThreshold)⌉
  let desiredReplicas := max cpuDesiredReplicas memoryDesiredReplicas
  min (max (desiredReplicas : ℚ) config.minReplicas) config.maxReplicas

/-! ## Load generation -/

/-- The raw `load` value computed by the `switch (pattern)` in `generateLoad`.
`sin2pi x y` stands for `Math.sin(2·π·x / y)`; `rand1` and `rand2` are the two
`Math.random()` draws of the `random` branch.  The only divisions by a
profile-supplied quantity are the ones by `period` (`sine`, `spike`,
`sawtooth`, `square`); at `period = 0` JavaScript produces `NaN` through
`time % 0` and `Math.sin(∞)` while this `ℚ` embedding sanitizes the division
to `0`, so theorems about `generateLoad` assume `period ≠ 0`, under which the
embedding agrees with the source on every branch. -/
def rawLoad (sin2pi : ℚ → ℚ → ℚ) (rand1 rand2 : ℚ) (pattern : String) (time : ℚ)
    (p : LoadProfile) : ℚ :=
  let baseLoad := p.baseLoad
  let amplitude := p.amplitude
  let period := p.period
  let spikeProbability := p.spikeProbability.getD 0.1
  let spikeMultiplier := p.spikeMultiplier.getD 2.0
  let maxUsers := p.maxUsers
  let userGrowthRate := p.userGrowthRate
  let initialUsers := p.initialUsers.getD baseLoad
  if pattern = "linear" then
    let timeInMinutes := jsMod time (24 * 3600) / 60
    let load := initialUsers + userGrowthRate * timeInMinutes
    if load ≥ maxUsers then maxUsers else load
  else if pattern = "sine" then
    baseLoad + amplitude * sin2pi time period
  else if pattern = "spike" then
    baseLoad + (if jsMod time period < period / 10 then amplitude else 0)
  else if pattern = "sawtooth" then
    baseLoad + amplitude * (jsMod time period / period)
  else if pattern = "square" then
    baseLoad + (if ⌊time / (period / 2)⌋ % 2 = 0 then amplitude else 0)
  else if pattern = "random" then
    let hasSpike := rand1 < spikeProbability
    let baseValue := baseLoad + (rand2 - 0.5) * amplitude
    if hasSpike then baseValue * spikeMultiplier else baseValue
  else if pattern = "daily" then
    let hourOfDay := jsMod time (24 * 3600) / 3600
    let workdayPattern := sin2pi (hourOfDay - 6) 24
    let workdayMultiplier : ℚ := if 8 ≤ hourOfDay ∧ hourOfDay ≤ 18 then 1 else 0.3
    baseLoad + amplitude * workdayPattern * workdayMultiplier
  else baseLoad

/-- The post-processing clamp of `generateLoad`: `[initialUsers, maxUsers]` for
the `linear` pattern, `[0, maxUsers]` for every other pattern. -/
def clampLoad (pattern : String) (initialUsers maxUsers load : ℚ) : ℚ :=
  if pattern = "linear" then max initialUsers (min load maxUsers)
  else max 0 (min load maxUsers)

/-- `generateLoad`: raw pattern value, clamp, then `Math.floor`. -/
def generateLoad (sin2pi : ℚ → ℚ → ℚ) (rand1 rand2 : ℚ) (pattern : String) (time : ℚ)
    (runtimeConfig : RuntimeConfig) : ℤ :=
  let p := runtimeConfig.defaultLoadProfile
  let initialUsers := p.initialUsers.getD p.baseLoad
  ⌊clampLoad pattern initialUsers p.maxUsers (rawLoad sin2pi rand1 rand2 pattern time p)⌋

/-! ## Population lifecycle -/

/-- Module-level mutable state of `scalingLogic.js`: the global `users` array
(`none` while the variable is still undeclared — it is only ever created by
the assignment inside `resetSimulation`) and `simulationStartTime` (`none`
models `null`). -/
structure ModuleState where
  users : Option (List UserSession)
  simulationStartTime : Option ℚ
deriving DecidableEq

/-- The state at module load: `users` undeclared, `simulationStartTime` null. -/
def initialModuleState : ModuleState := ⟨none, none⟩

/-- Outcomes of a tick other than a normal return: the `ReferenceError` thrown
by reading the undeclared global `users`, and the non-termination of the
shrink loop (`users.pop()` on an empty array never changes the length) when
the target is negative. -/
inductive TickErr where
  | referenceError : TickErr
  | divergence : TickErr
deriving DecidableEq

/-- The sessions pushed by the growth loop: the `k`-th new session gets id
`user-(start+k+1)` and a random type (`typeDraw` supplies each draw's
outcome); both timestamps are the creation instant. -/
def mkSessions (start count : ℕ) (typeDraw : ℕ → String) (now : ℚ) : List UserSession :=
  (List.range count).map fun k =>
    ⟨"user-" ++ (Nat.repr (start + k + 1)), typeDraw (start + k), now, now, none⟩

/-- The two `while` loops adjusting `users.length` toward `target`: grow by
pushing fresh sessions while short, then shrink by popping from the end while
long.  A negative target makes the shrink loop run forever (`none`). -/
def adjustUsers (users : List UserSession) (target : ℚ) (typeDraw : ℕ → String)
    (now : ℚ) : Option (List UserSession) :=
  if target < 0 then none
  else
    let grown :=
      if (users.length : ℚ) < target then
        users ++ mkSessions users.length ((⌈target⌉).toNat - users.length) typeDraw now
      else users
    if (grown.length : ℚ) > target then some (grown.take ((⌊target⌋).toNat)) else some grown

/-- The target of the `linear` branch of `simulateUserActivity`:
`Math.min(maxUsers, Math.floor(baseLoad + userGrowthRate × elapsedMinutes))`.
Note it starts from `baseLoad`, not `initialUsers`, and has no lower clamp. -/
def linearTarget (p : LoadProfile) (elapsedMinutes : ℚ) : ℚ :=
  min p.maxUsers ((⌊p.baseLoad + p.userGrowthRate * elapsedMinutes⌋ : ℤ) : ℚ)

/-- `simulateUserActivity` (one tick) as a transformer of the module state.
`currentTime` is `Date.now()/1000`.  Reading the still-undeclared global
`users` throws a `ReferenceError`.  `!simulationStartTime` is true for both
`null` and `0`, so a zero origin is re-seeded.  For the `linear` pattern the
target is computed from the elapsed time since `simulationStartTime`; any
other pattern nulls that origin and uses `generateLoad` on the raw clock. -/
def simulateUserActivity (typeDraw : ℕ → String) (sin2pi : ℚ → ℚ → ℚ) (rand1 rand2 : ℚ)
    (currentTime : ℚ) (runtimeConfig : RuntimeConfig) (st : ModuleState) :
    Except TickErr ModuleState :=
  let start :=
    match st.simulationStartTime with
    | none => currentTime
    | some t => if t = 0 then currentTime else t
  match st.users with
  | none => .error .referenceError
  | some users =>
    if runtimeConfig.defaultLoadProfile.pattern = "linear" then
      let elapsedMinutes := (currentTime - start) / 60
      let targetUsers := linearTarget runtimeConfig.defaultLoadProfile elapsedMinutes
      match adjustUsers users targetUsers typeDraw currentTime with
      | none => .error .divergence
      | some us => .ok ⟨some us, some start⟩
    else
      let targetUsers : ℚ :=
        ((generateLoad sin2pi rand1 rand2 runtimeConfig.defaultLoadProfile.pattern
            currentTime runtimeConfig : ℤ) : ℚ)
      match adjustUsers users targetUsers typeDraw currentTime with
      | none => .error .divergence
      | some us => .ok ⟨some us, none⟩

/-- `resetSimulation`: clears the origin and (re)creates the global `users`
as an empty array. -/
def resetSimulation (st : ModuleState) : ModuleState := ⟨some [], none⟩

/-! ## Helper lemmas -/

/-- Whether the string opens (after `parseInt`'s whitespace and sign
handling) with a decimal digit — the "prefix is a decimal integer" test of
the specification. -/
def hasIntStart (s : String) : Bool :=
  match s.data.dropWhile isJsSpace with
  | [] => false
  | c :: r =>
    if c = '+' ∨ c = '-' then
      match r with
      | [] => false
      | d :: _ => isDecDigit d
    else isDecDigit c

/-- `parseIntFrom` yields `NaN` when the scan does not open with a decimal
digit (the hex marker also needs the digit `0` first). -/
theorem parseIntFrom_eq_none (sign : ℤ) (cs : List Char)
    (h : ∀ d ∈ cs.head?, isDecDigit d = false) : parseIntFrom sign cs = none := by
  cases cs with
  | nil => simp [parseIntFrom, hexStart, List.takeWhile]
  | cons c r =>
    have hc : isDecDigit c = false := h c (by simp)
    have hx : hexStart (c :: r) = false := by
      cases r with
      | nil => simp [hexStart]
      | cons c1 r1 =>
        simp only [hexStart, decide_eq_false_iff_not, not_and]
        intro hc0
        subst hc0
        simp [isDecDigit] at hc
    simp [parseIntFrom, hx, List.takeWhile, hc]

/-- `jsParseInt` yields `NaN` on every string whose (whitespace- and
sign-stripped) front is not a decimal digit. -/
theorem jsParseInt_eq_none (s : String) (h : hasIntStart s = false) :
    jsParseInt s = none := by
  unfold jsParseInt jsParseIntList
  unfold hasIntStart at h
  cases hd : s.data.dropWhile isJsSpace with
  | nil => simp
  | cons c r =>
    rw [hd] at h
    by_cases hsign : c = '+' ∨ c = '-'
    · simp only [if_pos hsign] at h
      have hr : ∀ d ∈ r.head?, isDecDigit d = false := by
        cases r with
        | nil => simp
        | cons d rest => simpa using h
      rcases hsign with h1 | h1 <;> subst h1 <;> simp [parseIntFrom_eq_none _ _ hr]
    · simp only [if_neg hsign] at h
      push_neg at hsign
      have hr : ∀ d ∈ (c :: r).head?, isDecDigit d = false := by simpa using h
      simp [hsign.1, hsign.2, parseIntFrom_eq_none _ _ hr]

/-! ## The claims -/

/-- C5 (amended): on every input string whose prefix is not a decimal integer,
`parseCPU` and `parseMemory` return `NaN` (modelled `none`) — a value-based
signal rather than an exception, but not the value `0`. -/
theorem parse_malformed_nan (s : String) (h : hasIntStart s = false) :
    parseCPU s = none ∧ parseMemory s = none := by
  have hn := jsParseInt_eq_none s h
  constructor <;> simp [parseCPU, parseMemory, hn]

/-- C5 witness: the malformed string `"abc"` makes both parsers yield `NaN`. -/
theorem parse_malformed_nan_witness :
    hasIntStart "abc" = false ∧ parseCPU "abc" = none ∧ parseMemory "abc" = none :=
  ⟨by decide, (parse_malformed_nan "abc" (by decide)).1,
    (parse_malformed_nan "abc" (by decide)).2⟩

/-- C5 counterexample: the claim as stated says malformed input parses to `0`;
on `"abc"` (no decimal-integer prefix) neither parser returns `0`. -/
theorem parse_malformed_not_zero_cex :
    hasIntStart "abc" = false ∧ parseCPU "abc" ≠ some 0 ∧ parseMemory "abc" ≠ some 0 := by
  refine ⟨by decide, by decide, by decide⟩

/-- C9: `scaleReplicas` is independent of its `totalUsers` argument — the two
results agree for any pair of values of that argument, all else fixed. -/
theorem scaleReplicas_totalUsers_noop :
    ∀ (cr ac am t1 t2 : ℚ) (cfg : RuntimeConfig),
      scaleReplicas cr ac am t1 cfg = scaleReplicas cr ac am t2 cfg :=
  fun _ _ _ _ _ _ => rfl

/-- C1 (amended): with positive thresholds `scaleReplicas` returns
`clamp(max(ceil(cr·avgCpu/cpuThreshold), ceil(cr·avgMemory/memoryThreshold)),
minReplicas, maxReplicas)`; the result lies in `[minReplicas, maxReplicas]`
provided `minReplicas ≤ maxReplicas`; and at the scaling boundary
(`currentReplicas = 4`, `avgCpu = cpuThreshold`, `avgMemory = 0`,
`minReplicas = 1`, `maxReplicas = 10`) the result is `4`. -/
theorem scaleReplicas_clamp_spec :
    (∀ (cr ac am tu : ℚ) (cfg : RuntimeConfig),
        0 < cfg.cpuThreshold → 0 < cfg.memoryThreshold →
        scaleReplicas cr ac am tu cfg =
          min (max ((max ⌈cr * ac / cfg.cpuThreshold⌉ ⌈cr * am / cfg.memoryThreshold⌉ : ℤ) : ℚ)
            cfg.minReplicas) cfg.maxReplicas) ∧
    (∀ (cr ac am tu : ℚ) (cfg : RuntimeConfig),
        cfg.minReplicas ≤ cfg.maxReplicas →
        cfg.minReplicas ≤ scaleReplicas cr ac am tu cfg ∧
        scaleReplicas cr ac am tu cfg ≤ cfg.maxReplicas) ∧
    (∀ (tu : ℚ) (cfg : RuntimeConfig),
        0 < cfg.cpuThreshold → 0 < cfg.memoryThreshold →
        cfg.minReplicas = 1 → cfg.maxReplicas = 10 →
        scaleReplicas 4 cfg.cpuThreshold 0 tu cfg = 4) := by
  refine ⟨?_, ?_, ?_⟩
  · intro cr ac am tu cfg _ _
    simp only [scaleReplicas]
    rw [mul_div_assoc, mul_div_assoc]
  · intro cr ac am tu cfg h
    simp only [scaleReplicas]
    exact ⟨le_min (le_max_right _ _) h, min_le_right _ _⟩
  · intro tu cfg hc hm h1 h10
    simp only [scaleReplicas]
    rw [div_self hc.ne', zero_div, h1, h10]
    norm_num

/-- C1 witness: the three parts of `scaleReplicas_clamp_spec` instantiated at
concrete inputs with the hypotheses discharged. -/
theorem scaleReplicas_clamp_spec_witness :
    ((0:ℚ) < 2 ∧ (0:ℚ) < 3 ∧
      scaleReplicas 4 2 0 7 ⟨none, none, ⟨"sine", 0, 0, 1, none, none, 0, 0, none⟩, 2, 3, 1, 10, 0⟩ =
        min (max ((max ⌈(4:ℚ) * 2 / 2⌉ ⌈(4:ℚ) * 0 / 3⌉ : ℤ) : ℚ) 1) 10) ∧
    ((1:ℚ) ≤ 10 ∧
      (1:ℚ) ≤ scaleReplicas 4 2 0 7 ⟨none, none, ⟨"sine", 0, 0, 1, none, none, 0, 0, none⟩, 2, 3, 1, 10, 0⟩ ∧
      scaleReplicas 4 2 0 7 ⟨none, none, ⟨"sine", 0, 0, 1, none, none, 0, 0, none⟩, 2, 3, 1, 10, 0⟩ ≤ 10) := by
  refine ⟨⟨by norm_num, by norm_num, ?_⟩, ⟨by norm_num, ?_⟩⟩
  · exact scaleReplicas_clamp_spec.1 4 2 0 7
      ⟨none, none, ⟨"sine", 0, 0, 1, none, none, 0, 0, none⟩, 2, 3, 1, 10, 0⟩
      (by norm_num) (by norm_num)
  · exact scaleReplicas_clamp_spec.2.1 4 2 0 7
      ⟨none, none, ⟨"sine", 0, 0, 1, none, none, 0, 0, none⟩, 2, 3, 1, 10, 0⟩
      (by norm_num)

/-- C1 counterexample: with `minReplicas = 5 > maxReplicas = 3` (and positive
thresholds) the result `3` does not lie in `[minReplicas, maxReplicas]`, so
the unconditional membership part of the claim is false. -/
theorem scaleReplicas_interval_cex :
    (0:ℚ) < 1 ∧
    scaleReplicas 0 0 0 0 ⟨none, none, ⟨"sine", 0, 0, 1, none, none, 0, 0, none⟩, 1, 1, 5, 3, 0⟩ = 3 ∧
    ¬ ((5:ℚ) ≤ 3) := by
  refine ⟨by norm_num, ?_, by norm_num⟩
  simp only [scaleReplicas]
  norm_num

/-- C10: the population list `users` is only created by `resetSimulation`;
a tick from the module-load state throws a `ReferenceError` (for every
configuration, clock value and outcome of the random draws), while a tick
from any post-reset state never does. -/
theorem tick_before_reset_referenceError :
    (∀ (draw : ℕ → String) (f : ℚ → ℚ → ℚ) (r1 r2 t : ℚ) (cfg : RuntimeConfig),
        simulateUserActivity draw f r1 r2 t cfg initialModuleState =
          .error .referenceError) ∧
    (∀ (draw : ℕ → String) (f : ℚ → ℚ → ℚ) (r1 r2 t : ℚ) (cfg : RuntimeConfig)
        (st : ModuleState),
        simulateUserActivity draw f r1 r2 t cfg (resetSimulation st) ≠
          .error .referenceError) := by
  constructor
  · intro draw f r1 r2 t cfg
    rfl
  · intro draw f r1 r2 t cfg st
    simp only [simulateUserActivity, resetSimulation]
    split
    · rcases h : adjustUsers [] (linearTarget cfg.defaultLoadProfile ((t - t) / 60)) draw t with
        _ | us <;> simp [h]
    · rcases h : adjustUsers []
          ((generateLoad f r1 r2 cfg.defaultLoadProfile.pattern t cfg : ℤ) : ℚ) draw t with
        _ | us <;> simp [h]

/-- `a % b` is the identity on `[0, b)`. -/
theorem jsMod_eq_self {a b : ℚ} (h0 : 0 ≤ a) (hab : a < b) : jsMod a b = a := by
  have hb : 0 < b := lt_of_le_of_lt h0 hab
  have hq0 : 0 ≤ a / b := div_nonneg h0 hb.le
  have hq1 : a / b < 1 := (div_lt_one hb).mpr hab
  have : ratTrunc (a / b) = 0 := by
    simp only [ratTrunc, if_pos hq0]
    exact Int.floor_eq_zero_iff.mpr ⟨hq0, hq1⟩
  simp [jsMod, this]

/-- The post-processing clamp keeps every raw value inside the advertised
interval. -/
theorem clampLoad_bounds (pattern : String) (iu mu load : ℚ)
    (h0 : 0 ≤ iu) (h1 : iu ≤ mu) :
    0 ≤ clampLoad pattern iu mu load ∧ clampLoad pattern iu mu load ≤ mu := by
  unfold clampLoad
  split
  · exact ⟨le_trans h0 (le_max_left _ _), max_le h1 (min_le_right _ _)⟩
  · exact ⟨le_max_left _ _, max_le (le_trans h0 h1) (min_le_right _ _)⟩

/-- The linear cap `if load ≥ maxUsers then maxUsers else load` is a `min`. -/
theorem ite_ge_eq_min (x m : ℚ) : (if x ≥ m then m else x) = min x m := by
  split
  · next h => exact (min_eq_right h).symm
  · next h => exact (min_eq_left (le_of_not_le h)).symm

/-- C2 (amended): for every pattern tag, time, outcome of the random draws and
sine values, and every profile with nonzero `period` (ruling out the `NaN`
that `time % 0` and `Math.sin(2πt/0)` produce in the `sine`/`spike`/
`sawtooth`/`square` branches) and `0 ≤ initialUsers ≤ maxUsers`, the integer
returned by `generateLoad` lies in `[0, maxUsers]`; for the `linear` pattern
its lower bound is `⌊initialUsers⌋` (so `initialUsers` itself exactly when
`initialUsers` is an integer). -/
theorem generateLoad_bounds :
    ∀ (f : ℚ → ℚ → ℚ) (r1 r2 : ℚ) (pattern : String) (t : ℚ) (cfg : RuntimeConfig),
      0 ≤ t →
      cfg.defaultLoadProfile.period ≠ 0 →
      0 ≤ cfg.defaultLoadProfile.initialUsers.getD cfg.defaultLoadProfile.baseLoad →
      cfg.defaultLoadProfile.initialUsers.getD cfg.defaultLoadProfile.baseLoad ≤
        cfg.defaultLoadProfile.maxUsers →
      0 ≤ generateLoad f r1 r2 pattern t cfg ∧
      ((generateLoad f r1 r2 pattern t cfg : ℤ) : ℚ) ≤ cfg.defaultLoadProfile.maxUsers ∧
      (pattern = "linear" →
        ⌊cfg.defaultLoadProfile.initialUsers.getD cfg.defaultLoadProfile.baseLoad⌋ ≤
          generateLoad f r1 r2 pattern t cfg) := by
  intro f r1 r2 pattern t cfg _ _ h0 h1
  simp only [generateLoad]
  obtain ⟨hlo, hhi⟩ := clampLoad_bounds pattern _ cfg.defaultLoadProfile.maxUsers
    (rawLoad f r1 r2 pattern t cfg.defaultLoadProfile) h0 h1
  refine ⟨Int.floor_nonneg.mpr hlo, le_trans (Int.floor_le _) hhi, ?_⟩
  intro hp
  subst hp
  exact Int.floor_le_floor (by simp only [clampLoad, if_pos]; exact le_max_left _ _)

/-- C2 witness: the bounds at a concrete profile and time. -/
theorem generateLoad_bounds_witness :
    (0:ℚ) ≤ 0 ∧ (1:ℚ) ≠ 0 ∧ (0:ℚ) ≤ 0 ∧ (0:ℚ) ≤ 10 ∧
    (0 ≤ generateLoad (fun _ _ => 0) 0 0 "sine" 0
        ⟨none, none, ⟨"sine", 0, 5, 1, none, none, 10, 0, some 0⟩, 1, 1, 1, 10, 0⟩ ∧
      ((generateLoad (fun _ _ => 0) 0 0 "sine" 0
        ⟨none, none, ⟨"sine", 0, 5, 1, none, none, 10, 0, some 0⟩, 1, 1, 1, 10, 0⟩ : ℤ) : ℚ) ≤ 10 ∧
      ("sine" = "linear" →
        ⌊(0:ℚ)⌋ ≤ generateLoad (fun _ _ => 0) 0 0 "sine" 0
          ⟨none, none, ⟨"sine", 0, 5, 1, none, none, 10, 0, some 0⟩, 1, 1, 1, 10, 0⟩)) :=
  ⟨le_refl 0, by norm_num, le_refl 0, by norm_num,
    generateLoad_bounds (fun _ _ => 0) 0 0 "sine" 0
      ⟨none, none, ⟨"sine", 0, 5, 1, none, none, 10, 0, some 0⟩, 1, 1, 1, 10, 0⟩
      (le_refl 0) (by norm_num) (le_refl 0) (by norm_num)⟩

/-- C2 counterexample: with the fractional `initialUsers = 1/2` (and
`0 ≤ initialUsers ≤ maxUsers`, `time = 0 ≥ 0`) the `linear` result is the
integer `0`, which is strictly below `initialUsers`, so the claimed lower
bound `initialUsers` for `linear` is false as stated. -/
theorem generateLoad_linear_lower_cex :
    ((0:ℚ) ≤ 0 ∧ (1:ℚ) ≠ 0 ∧ (0:ℚ) ≤ 1/2 ∧ (1/2:ℚ) ≤ 10) ∧
    generateLoad (fun _ _ => 0) 0 0 "linear" 0
      ⟨none, none, ⟨"linear", 0, 0, 1, none, none, 10, 0, some (1/2)⟩, 1, 1, 1, 10, 0⟩ = 0 ∧
    ¬ ((1/2 : ℚ) ≤ ((0 : ℤ) : ℚ)) := by
  refine ⟨⟨le_refl 0, by norm_num, by norm_num, by norm_num⟩, ?_, by norm_num⟩
  norm_num [generateLoad, rawLoad, clampLoad, jsMod, ratTrunc]

/-- C3 (amended): within a single 24-hour window of the clock (the formula
resets at `time mod 86400`), the `linear` target is non-decreasing in time
for any profile with `userGrowthRate ≥ 0`. -/
theorem generateLoad_linear_mono :
    ∀ (f : ℚ → ℚ → ℚ) (r1 r2 : ℚ) (cfg : RuntimeConfig) (t1 t2 : ℚ),
      0 ≤ cfg.defaultLoadProfile.userGrowthRate →
      0 ≤ t1 → t1 ≤ t2 → t2 < 86400 →
      generateLoad f r1 r2 "linear" t1 cfg ≤ generateLoad f r1 r2 "linear" t2 cfg := by
  intro f r1 r2 cfg t1 t2 hg h0 h12 h2
  have h01 : t1 < 24 * 3600 := by linarith
  have h02 : t2 < 24 * 3600 := by linarith
  have e1 : jsMod t1 (24 * 3600) = t1 := jsMod_eq_self h0 h01
  have e2 : jsMod t2 (24 * 3600) = t2 := jsMod_eq_self (le_trans h0 h12) h02
  simp only [generateLoad, rawLoad, clampLoad, if_pos rfl, e1, e2, ite_ge_eq_min]
  apply Int.floor_le_floor
  apply max_le_max le_rfl
  apply min_le_min _ le_rfl
  apply min_le_min _ le_rfl
  apply add_le_add_left
  apply mul_le_mul_of_nonneg_left _ hg
  exact (div_le_div_iff_of_pos_right (by norm_num)).mpr h12

/-- C3 witness: monotonicity applied at a concrete profile and two concrete
times of the same day. -/
theorem generateLoad_linear_mono_witness :
    (0:ℚ) ≤ 1 ∧ (0:ℚ) ≤ 0 ∧ (0:ℚ) ≤ 60 ∧ (60:ℚ) < 86400 ∧
    generateLoad (fun _ _ => 0) 0 0 "linear" 0
        ⟨none, none, ⟨"linear", 0, 0, 1, none, none, 10, 1, some 0⟩, 1, 1, 1, 10, 0⟩ ≤
      generateLoad (fun _ _ => 0) 0 0 "linear" 60
        ⟨none, none, ⟨"linear", 0, 0, 1, none, none, 10, 1, some 0⟩, 1, 1, 1, 10, 0⟩ :=
  ⟨by norm_num, le_refl 0, by norm_num, by norm_num,
    generateLoad_linear_mono (fun _ _ => 0) 0 0
      ⟨none, none, ⟨"linear", 0, 0, 1, none, none, 10, 1, some 0⟩, 1, 1, 1, 10, 0⟩ 0 60
      (by norm_num) (le_refl 0) (by norm_num) (by norm_num)⟩

/-- C3 counterexample: across the 24-hour reset the `linear` target drops —
at `t1 = 43200` the result is `720` but at `t2 = 86400 ≥ t1` it is `0`, so
global monotonicity in time is false (growth rate `1 ≥ 0`, `time ≥ 0`). -/
theorem generateLoad_linear_mono_cex :
    ((0:ℚ) ≤ 1 ∧ (0:ℚ) ≤ 43200 ∧ (43200:ℚ) ≤ 86400) ∧
    generateLoad (fun _ _ => 0) 0 0 "linear" 43200
      ⟨none, none, ⟨"linear", 0, 0, 1, none, none, 1000000, 1, some 0⟩, 1, 1, 1, 10, 0⟩ = 720 ∧
    generateLoad (fun _ _ => 0) 0 0 "linear" 86400
      ⟨none, none, ⟨"linear", 0, 0, 1, none, none, 1000000, 1, some 0⟩, 1, 1, 1, 10, 0⟩ = 0 ∧
    ¬ ((720:ℤ) ≤ 0) := by
  refine ⟨⟨by norm_num, by norm_num, by norm_num⟩, ?_, ?_, by norm_num⟩ <;>
    norm_num [generateLoad, rawLoad, clampLoad, jsMod, ratTrunc]

/-- C8: for every pod whose limit strings parse to positive values, every user
list and every config that carries `userResources`, the cpu and memory
percentages returned by `simulatePodUsage` lie in `[0, 100]`, while the
`rawMetrics` field of the same record carries the unclamped usage and limit
values. -/
theorem simulatePodUsage_clamped :
    ∀ (pod : Pod) (users : List UserSession) (cfg : RuntimeConfig) (now : String)
      (ur : UserResources) (c m : ℤ),
      cfg.userResources = some ur →
      parseCPU pod.limitsCpu = some c → 0 < c →
      parseMemory pod.limitsMemory = some m → 0 < m →
      ∃ pc mc : ℚ,
        (simulatePodUsage pod users cfg now).cpu = some pc ∧ 0 ≤ pc ∧ pc ≤ 100 ∧
        (simulatePodUsage pod users cfg now).memory = some mc ∧ 0 ≤ mc ∧ mc ≤ 100 ∧
        (simulatePodUsage pod users cfg now).rawMetrics =
          some ⟨(calculateResourcesForUsers (podUsersOf pod users) cfg).cpu,
                (calculateResourcesForUsers (podUsersOf pod users) cfg).memory,
                some c, some m⟩ := by
  intro pod users cfg now ur c m hur hc hcpos hm hmpos
  refine ⟨min 100 (max 0 ((calculateResourcesForUsers (podUsersOf pod users) cfg).cpu / (c : ℚ) * 100)),
          min 100 (max 0 ((calculateResourcesForUsers (podUsersOf pod users) cfg).memory / (m : ℚ) * 100)),
          ?_, ?_, ?_, ?_, ?_, ?_, ?_⟩ <;>
    simp [simulatePodUsage, hur, hc, hm, le_max_left, le_max_right, min_le_left]

/-- C8 witness: a concrete pod with limits `"500m"`/`"512Mi"`, no users and a
config with `userResources` present. -/
theorem simulatePodUsage_clamped_witness :
    (⟨none, some ⟨50, 50⟩, ⟨"sine", 0, 0, 1, none, none, 10, 0, none⟩, 1, 1, 1, 10, 0⟩ :
        RuntimeConfig).userResources = some ⟨50, 50⟩ ∧
    parseCPU "500m" = some 500 ∧ (0:ℤ) < 500 ∧
    parseMemory "512Mi" = some 512 ∧ (0:ℤ) < 512 ∧
    ∃ pc mc : ℚ,
      (simulatePodUsage ⟨"p1", "500m", "512Mi", none⟩ []
          ⟨none, some ⟨50, 50⟩, ⟨"sine", 0, 0, 1, none, none, 10, 0, none⟩, 1, 1, 1, 10, 0⟩
          "ts").cpu = some pc ∧ 0 ≤ pc ∧ pc ≤ 100 ∧
      (simulatePodUsage ⟨"p1", "500m", "512Mi", none⟩ []
          ⟨none, some ⟨50, 50⟩, ⟨"sine", 0, 0, 1, none, none, 10, 0, none⟩, 1, 1, 1, 10, 0⟩
          "ts").memory = some mc ∧ 0 ≤ mc ∧ mc ≤ 100 ∧
      (simulatePodUsage ⟨"p1", "500m", "512Mi", none⟩ []
          ⟨none, some ⟨50, 50⟩, ⟨"sine", 0, 0, 1, none, none, 10, 0, none⟩, 1, 1, 1, 10, 0⟩
          "ts").rawMetrics =
        some ⟨(calculateResourcesForUsers
                (podUsersOf ⟨"p1", "500m", "512Mi", none⟩ [])
                ⟨none, some ⟨50, 50⟩, ⟨"sine", 0, 0, 1, none, none, 10, 0, none⟩, 1, 1, 1, 10, 0⟩).cpu,
              (calculateResourcesForUsers
                (podUsersOf ⟨"p1", "500m", "512Mi", none⟩ [])
                ⟨none, some ⟨50, 50⟩, ⟨"sine", 0, 0, 1, none, none, 10, 0, none⟩, 1, 1, 1, 10, 0⟩).memory,
              some 500, some 512⟩ :=
  ⟨rfl, by decide, by decide, by decide, by decide,
    simulatePodUsage_clamped ⟨"p1", "500m", "512Mi", none⟩ []
      ⟨none, some ⟨50, 50⟩, ⟨"sine", 0, 0, 1, none, none, 10, 0, none⟩, 1, 1, 1, 10, 0⟩
      "ts" ⟨50, 50⟩ 500 512 rfl (by decide) (by decide) (by decide) (by decide)⟩

/-- The growth loop appends exactly the requested number of sessions. -/
theorem mkSessions_length (start count : ℕ) (draw : ℕ → String) (now : ℚ) :
    (mkSessions start count draw now).length = count := by
  simp [mkSessions]

/-- Reconciling toward a natural-number target always terminates and lands
the population exactly on the target. -/
theorem adjustUsers_natCast (us : List UserSession) (n : ℕ) (draw : ℕ → String) (now : ℚ) :
    ∃ us', adjustUsers us ((n : ℕ) : ℚ) draw now = some us' ∧ us'.length = n := by
  unfold adjustUsers
  rw [if_neg (not_lt.mpr (by positivity))]
  by_cases hlt : us.length < n
  · have hcast : ((us.length : ℕ) : ℚ) < ((n : ℕ) : ℚ) := by exact_mod_cast hlt
    rw [if_pos hcast]
    have hceil : (⌈((n : ℕ) : ℚ)⌉).toNat = n := by
      rw [Int.ceil_natCast]
      exact Int.toNat_natCast n
    have hlen : (us ++ mkSessions us.length ((⌈((n : ℕ) : ℚ)⌉).toNat - us.length) draw now).length = n := by
      rw [List.length_append, mkSessions_length, hceil]
      omega
    rw [if_neg (by rw [hlen]; exact lt_irrefl _)]
    exact ⟨_, rfl, hlen⟩
  · have hcast : ¬ ((us.length : ℕ) : ℚ) < ((n : ℕ) : ℚ) := by exact_mod_cast hlt
    rw [if_neg hcast]
    by_cases hgt : n < us.length
    · have hgt' : ((n : ℕ) : ℚ) < ((us.length : ℕ) : ℚ) := by exact_mod_cast hgt
      rw [if_pos hgt']
      refine ⟨_, rfl, ?_⟩
      rw [Int.floor_natCast, Int.toNat_natCast, List.length_take]
      omega
    · have heq : us.length = n := by omega
      have : ¬ ((us.length : ℕ) : ℚ) > ((n : ℕ) : ℚ) := by
        exact_mod_cast not_lt.mpr (le_of_eq heq)
      rw [if_neg this]
      exact ⟨us, rfl, heq⟩

/-- Reconciling toward any non-negative target terminates. -/
theorem adjustUsers_nonneg (us : List UserSession) (target : ℚ) (draw : ℕ → String)
    (now : ℚ) (h : 0 ≤ target) :
    ∃ us', adjustUsers us target draw now = some us' := by
  unfold adjustUsers
  rw [if_neg (not_lt.mpr h)]
  dsimp only
  split <;> split <;> exact ⟨_, rfl⟩

/-- Every non-`linear` pattern clamps the raw load at `0` from below. -/
theorem generateLoad_nonneg_of_ne (f : ℚ → ℚ → ℚ) (r1 r2 : ℚ) (pattern : String)
    (t : ℚ) (cfg : RuntimeConfig) (h : pattern ≠ "linear") :
    0 ≤ generateLoad f r1 r2 pattern t cfg := by
  simp only [generateLoad]
  refine Int.floor_nonneg.mpr ?_
  simp only [clampLoad, if_neg h]
  exact le_max_left _ _

/-- C4 (amended): a `linear` tick sets the population size to
`min(maxUsers, ⌊baseLoad + userGrowthRate × elapsedMinutes⌋)` — note
`baseLoad`, not `initialUsers`, and no lower clamp — where `elapsedMinutes`
counts from `simulationStartTime`, the instant the linear regime was entered,
not from the tick's raw clock value; a tick under any other pattern nulls
that origin (so switching away and back resets it, the next linear tick
re-seeding the origin with its own clock). -/
theorem tick_linear_spec :
    (∀ (draw : ℕ → String) (f : ℚ → ℚ → ℚ) (r1 r2 t t0 : ℚ) (cfg : RuntimeConfig)
        (us : List UserSession) (n : ℕ),
        cfg.defaultLoadProfile.pattern = "linear" → t0 ≠ 0 →
        linearTarget cfg.defaultLoadProfile ((t - t0) / 60) = ((n : ℕ) : ℚ) →
        ∃ us', simulateUserActivity draw f r1 r2 t cfg ⟨some us, some t0⟩ =
            .ok ⟨some us', some t0⟩ ∧ us'.length = n) ∧
    (∀ (draw : ℕ → String) (f : ℚ → ℚ → ℚ) (r1 r2 t : ℚ) (cfg : RuntimeConfig)
        (us : List UserSession) (n : ℕ),
        cfg.defaultLoadProfile.pattern = "linear" →
        linearTarget cfg.defaultLoadProfile 0 = ((n : ℕ) : ℚ) →
        ∃ us', simulateUserActivity draw f r1 r2 t cfg ⟨some us, none⟩ =
            .ok ⟨some us', some t⟩ ∧ us'.length = n) ∧
    (∀ (draw : ℕ → String) (f : ℚ → ℚ → ℚ) (r1 r2 t : ℚ) (cfg : RuntimeConfig)
        (us : List UserSession) (st0 : Option ℚ),
        cfg.defaultLoadProfile.pattern ≠ "linear" →
        ∃ us', simulateUserActivity draw f r1 r2 t cfg ⟨some us, st0⟩ =
            .ok ⟨some us', none⟩) := by
  refine ⟨?_, ?_, ?_⟩
  · intro draw f r1 r2 t t0 cfg us n hp ht0 hQ
    simp only [simulateUserActivity, hp, if_pos, if_neg ht0]
    rw [hQ]
    obtain ⟨us', ha, hl⟩ := adjustUsers_natCast us n draw t
    rw [ha]
    exact ⟨us', rfl, hl⟩
  · intro draw f r1 r2 t cfg us n hp hQ
    simp only [simulateUserActivity, hp, if_pos]
    have : (t - t) / 60 = 0 := by rw [sub_self, zero_div]
    rw [this, hQ]
    obtain ⟨us', ha, hl⟩ := adjustUsers_natCast us n draw t
    rw [ha]
    exact ⟨us', rfl, hl⟩
  · intro draw f r1 r2 t cfg us st0 hp
    simp only [simulateUserActivity]
    rw [if_neg hp]
    have h0 : (0 : ℚ) ≤ ((generateLoad f r1 r2 cfg.defaultLoadProfile.pattern t cfg : ℤ) : ℚ) := by
      exact_mod_cast generateLoad_nonneg_of_ne f r1 r2 _ t cfg hp
    obtain ⟨us', ha⟩ := adjustUsers_nonneg us _ draw t h0
    rw [ha]
    exact ⟨us', rfl⟩

/-- C4 witness: a linear tick from origin `t0 = 50` at clock `t = 110`
(one elapsed minute) with `baseLoad = 3`, `userGrowthRate = 2`,
`maxUsers = 10` lands the population on `min(10, ⌊3 + 2·1⌋) = 5`. -/
theorem tick_linear_spec_witness :
    (⟨none, none, ⟨"linear", 3, 0, 1, none, none, 10, 2, none⟩, 1, 1, 1, 10, 0⟩ :
        RuntimeConfig).defaultLoadProfile.pattern = "linear" ∧
    (50 : ℚ) ≠ 0 ∧
    linearTarget ⟨"linear", 3, 0, 1, none, none, 10, 2, none⟩ ((110 - 50) / 60) = ((5 : ℕ) : ℚ) ∧
    ∃ us', simulateUserActivity (fun _ => "medium") (fun _ _ => 0) 0 0 110
        ⟨none, none, ⟨"linear", 3, 0, 1, none, none, 10, 2, none⟩, 1, 1, 1, 10, 0⟩
        ⟨some [], some 50⟩ = .ok ⟨some us', some 50⟩ ∧ us'.length = 5 :=
  ⟨rfl, by norm_num, by norm_num [linearTarget],
    tick_linear_spec.1 (fun _ => "medium") (fun _ _ => 0) 0 0 110 50
      ⟨none, none, ⟨"linear", 3, 0, 1, none, none, 10, 2, none⟩, 1, 1, 1, 10, 0⟩
      [] 5 rfl (by norm_num) (by norm_num [linearTarget])⟩

/-- C4 counterexample: with `baseLoad = 0`, `initialUsers = 5`,
`userGrowthRate = 0`, `maxUsers = 10`, a linear tick right after a reset
yields a population of size `0`, while the claimed formula
`clamp(⌊initialUsers + rate·minutes⌋, initialUsers, maxUsers)` predicts `5`:
the code starts from `baseLoad` and never clamps up to `initialUsers`. -/
theorem tick_linear_target_cex :
    simulateUserActivity (fun _ => "medium") (fun _ _ => 0) 0 0 100
      ⟨none, none, ⟨"linear", 0, 0, 1, none, none, 10, 0, some 5⟩, 1, 1, 1, 10, 0⟩
      ⟨some [], none⟩ = .ok ⟨some [], some 100⟩ ∧ (0 : ℕ) ≠ 5 := by
  constructor
  · norm_num [simulateUserActivity, linearTarget, adjustUsers]
  · decide

/-! ## Decimal numerals and the parser round-trip -/

/-- The character of a decimal digit. -/
def digitChar (d : ℕ) : Char := Char.ofNat (48 + d)

/-- The canonical decimal digit string of a natural number. -/
def natToDigits (n : ℕ) : List Char :=
  if _h : n < 10 then [digitChar n]
  else natToDigits (n / 10) ++ [digitChar (n % 10)]
decreasing_by exact Nat.div_lt_self (by omega) (by omega)

/-- The canonical decimal numeral of a natural number, as a string. -/
def natRepr (n : ℕ) : String := ⟨natToDigits n⟩

theorem digitChar_isDec {d : ℕ} (h : d < 10) : isDecDigit (digitChar d) = true := by
  interval_cases d <;> decide

theorem digitChar_val {d : ℕ} (h : d < 10) : digitVal (digitChar d) = d := by
  interval_cases d <;> decide

theorem natToDigits_ne_nil (n : ℕ) : natToDigits n ≠ [] := by
  rw [natToDigits]
  split <;> simp

theorem natToDigits_all (n : ℕ) : ∀ c ∈ natToDigits n, isDecDigit c = true := by
  induction n using Nat.strong_induction_on with
  | _ n ih =>
    rw [natToDigits]
    split
    · next h =>
      intro c hc
      simp only [List.mem_singleton] at hc
      subst hc
      exact digitChar_isDec h
    · next h =>
      intro c hc
      rcases List.mem_append.mp hc with h1 | h1
      · exact ih (n / 10) (Nat.div_lt_self (by omega) (by omega)) c h1
      · simp only [List.mem_singleton] at h1
        subst h1
        exact digitChar_isDec (Nat.mod_lt _ (by omega))

theorem decimalVal_natToDigits : ∀ n : ℕ, decimalVal (natToDigits n) = n := by
  intro n
  induction n using Nat.strong_induction_on with
  | _ n ih =>
    rw [natToDigits]
    split
    · next h => simp [decimalVal, digitChar_val h]
    · next h =>
      have hmod : n % 10 < 10 := Nat.mod_lt _ (by omega)
      simp only [decimalVal, List.foldl_append, List.foldl_cons, List.foldl_nil]
      have := ih (n / 10) (Nat.div_lt_self (by omega) (by omega))
      simp only [decimalVal] at this
      rw [this, digitChar_val hmod]
      omega

theorem isDecDigit_bounds {c : Char} (h : isDecDigit c = true) :
    48 ≤ c.toNat ∧ c.toNat ≤ 57 := by
  simpa [isDecDigit] using h

theorem isDecDigit_not_space {c : Char} (h : isDecDigit c = true) : isJsSpace c = false := by
  obtain ⟨h1, h2⟩ := isDecDigit_bounds h
  simp only [isJsSpace, decide_eq_false_iff_not]
  rintro (rfl | rfl | rfl | rfl | hc | hc)
  · exact absurd h1 (by decide)
  · exact absurd h1 (by decide)
  · exact absurd h1 (by decide)
  · exact absurd h1 (by decide)
  · omega
  · omega

theorem isDecDigit_ne_sign {c : Char} (h : isDecDigit c = true) : c ≠ '+' ∧ c ≠ '-' := by
  obtain ⟨h1, h2⟩ := isDecDigit_bounds h
  constructor <;> rintro rfl <;> exact absurd h1 (by decide)

theorem isDecDigit_ne_hexMark {c : Char} (h : isDecDigit c = true) : c ≠ 'x' ∧ c ≠ 'X' := by
  obtain ⟨h1, h2⟩ := isDecDigit_bounds h
  constructor <;> rintro rfl <;> exact absurd h2 (by decide)

theorem takeWhile_append_of_head {p : Char → Bool} (l r : List Char)
    (hl : ∀ c ∈ l, p c = true) (hr : ∀ c ∈ r.head?, p c = false) :
    (l ++ r).takeWhile p = l := by
  induction l with
  | nil =>
    cases r with
    | nil => rfl
    | cons c t => simp [List.takeWhile_cons, hr c (by simp)]
  | cons a l ih =>
    simp only [List.cons_append, List.takeWhile_cons, hl a (by simp), if_true]
    rw [ih (fun c hc => hl c (by simp [hc]))]

/-- `parseInt` applied to a canonical numeral followed by any tail that does
not continue the digit run (and cannot be mistaken for a hex marker). -/
theorem jsParseIntList_digits (n : ℕ) (rest : List Char)
    (hrest : ∀ c ∈ rest.head?, isDecDigit c = false ∧ c ≠ 'x' ∧ c ≠ 'X') :
    jsParseIntList (natToDigits n ++ rest) = some (n : ℤ) := by
  obtain ⟨d, ds, hd⟩ : ∃ d ds, natToDigits n = d :: ds := by
    cases h : natToDigits n with
    | nil => exact absurd h (natToDigits_ne_nil n)
    | cons d ds => exact ⟨d, ds, rfl⟩
  have hall : ∀ c ∈ d :: ds, isDecDigit c = true := by
    rw [← hd]; exact natToDigits_all n
  have hdd : isDecDigit d = true := hall d (by simp)
  have hx : hexStart (d :: (ds ++ rest)) = false := by
    rcases ds with _ | ⟨e, es⟩
    · rcases hr : rest with _ | ⟨c1, r1⟩
      · simp [hexStart]
      · simp only [List.nil_append, hexStart, decide_eq_false_iff_not]
        rintro ⟨rfl, hmark⟩
        have := hrest c1 (by simp [hr])
        rcases hmark with rfl | rfl
        · exact this.2.1 rfl
        · exact this.2.2 rfl
    · simp only [List.cons_append, hexStart, decide_eq_false_iff_not]
      rintro ⟨rfl, hmark⟩
      have he : isDecDigit e = true := hall e (by simp)
      rcases hmark with rfl | rfl
      · exact absurd (isDecDigit_ne_hexMark he).1 (by simp)
      · exact absurd (isDecDigit_ne_hexMark he).2 (by simp)
  have htake : (d :: (ds ++ rest)).takeWhile isDecDigit = d :: ds := by
    have := takeWhile_append_of_head (p := isDecDigit) (d :: ds) rest hall
      (fun c hc => (hrest c hc).1)
    simpa using this
  rw [hd]
  simp only [List.cons_append, jsParseIntList,
    List.dropWhile_cons, isDecDigit_not_space hdd, Bool.false_eq_true, if_false,
    if_neg (isDecDigit_ne_sign hdd).1, if_neg (isDecDigit_ne_sign hdd).2]
  rw [parseIntFrom, if_neg (by rw [hx]; exact Bool.false_ne_true)]
  simp only [htake, List.isEmpty_cons, Bool.false_eq_true, if_false]
  have : decimalVal (d :: ds) = n := by rw [← hd]; exact decimalVal_natToDigits n
  rw [this, one_mul]

/-- A string tail is recognized by `jsEndsWith` after an append. -/
theorem jsEndsWith_append (l s : List Char) : jsEndsWith (l ++ s) s = true := by
  simp only [jsEndsWith, decide_eq_true_eq]
  have h : (l ++ s).length - s.length = l.length := by
    rw [List.length_append]; omega
  rw [h, List.drop_left]

/-- A suffix containing a non-digit never matches a pure digit string. -/
theorem jsEndsWith_all_digits (l t : List Char) (hl : ∀ x ∈ l, isDecDigit x = true)
    (c : Char) (hct : c ∈ t) (hcd : isDecDigit c = false) : jsEndsWith l t = false := by
  simp only [jsEndsWith, decide_eq_false_iff_not]
  intro h
  have hcl : c ∈ l := List.drop_subset _ l (h ▸ hct)
  simp [hl c hcl] at hcd

/-- Two same-length suffixes are distinguished after an append. -/
theorem jsEndsWith_append_ne (l s t : List Char) (hlen : s.length = t.length)
    (hne : s ≠ t) : jsEndsWith (l ++ s) t = false := by
  simp only [jsEndsWith, decide_eq_false_iff_not]
  have h : (l ++ s).length - t.length = l.length := by
    rw [List.length_append, ← hlen]; omega
  rw [h, List.drop_left]
  exact hne

/-- C6: unit-parser round-trip.  For every natural `n`: `parseCPU` maps the
numeral of `n` followed by `m` to `n` and the bare numeral to `n·1000`;
`parseMemory` maps numeral+`Gi` to `n·1024`, numeral+`Mi` to `n`, and any
string that parses to `n` with no recognized suffix to `n`; in particular
`"500m" → 500`, `"2" → 2000`, `"512Mi" → 512`, `"1Gi" → 1024`. -/
theorem parse_roundTrip (n : ℕ) :
    parseCPU (natRepr n ++ "m") = some (n : ℤ) ∧
    parseCPU (natRepr n) = some ((n : ℤ) * 1000) ∧
    parseMemory (natRepr n ++ "Gi") = some ((n : ℤ) * 1024) ∧
    parseMemory (natRepr n ++ "Mi") = some (n : ℤ) ∧
    (∀ s : String, jsParseInt s = some (n : ℤ) →
      jsEndsWith s.data "Gi".data = false → jsEndsWith s.data "Mi".data = false →
      parseMemory s = some (n : ℤ)) ∧
    parseCPU "500m" = some 500 ∧ parseCPU "2" = some 2000 ∧
    parseMemory "512Mi" = some 512 ∧ parseMemory "1Gi" = some 1024 := by
  have hm : ("m" : String).data = ['m'] := rfl
  have hgi : ("Gi" : String).data = ['G', 'i'] := rfl
  have hmi : ("Mi" : String).data = ['M', 'i'] := rfl
  refine ⟨?_, ?_, ?_, ?_, ?_, by decide, by decide, by decide, by decide⟩
  · have hdata : (natRepr n ++ "m").data = natToDigits n ++ ['m'] := rfl
    have hparse := jsParseIntList_digits n ['m']
      (by intro c hc; simp only [List.head?_cons, Option.mem_some_iff] at hc; subst hc
          exact ⟨by decide, by decide, by decide⟩)
    simp [parseCPU, jsParseInt, hdata, hm, hparse, jsEndsWith_append]
  · have hdata : (natRepr n).data = natToDigits n := rfl
    have hparse := jsParseIntList_digits n [] (by simp)
    rw [List.append_nil] at hparse
    have hends : jsEndsWith (natToDigits n) ['m'] = false :=
      jsEndsWith_all_digits _ _ (natToDigits_all n) 'm' (by simp) (by decide)
    simp [parseCPU, jsParseInt, hdata, hm, hparse, hends]
  · have hdata : (natRepr n ++ "Gi").data = natToDigits n ++ ['G', 'i'] := rfl
    have hparse := jsParseIntList_digits n ['G', 'i']
      (by intro c hc; simp only [List.head?_cons, Option.mem_some_iff] at hc; subst hc
          exact ⟨by decide, by decide, by decide⟩)
    simp [parseMemory, jsParseInt, hdata, hgi, hparse, jsEndsWith_append]
  · have hdata : (natRepr n ++ "Mi").data = natToDigits n ++ ['M', 'i'] := rfl
    have hparse := jsParseIntList_digits n ['M', 'i']
      (by intro c hc; simp only [List.head?_cons, Option.mem_some_iff] at hc; subst hc
          exact ⟨by decide, by decide, by decide⟩)
    have hne : jsEndsWith (natToDigits n ++ ['M', 'i']) ['G', 'i'] = false :=
      jsEndsWith_append_ne _ _ _ rfl (by decide)
    simp [parseMemory, jsParseInt, hdata, hgi, hmi, hparse, hne, jsEndsWith_append]
  · intro s hs hg hmi'
    simp [parseMemory, hs, hg, hmi']

/-- C6 witness: the no-suffix clause applied to the concrete string `"7"`. -/
theorem parse_roundTrip_witness :
    (jsParseInt "7" = some ((7 : ℕ) : ℤ) ∧
      jsEndsWith ("7" : String).data ("Gi" : String).data = false ∧
      jsEndsWith ("7" : String).data ("Mi" : String).data = false) ∧
    parseMemory "7" = some ((7 : ℕ) : ℤ) :=
  ⟨⟨by decide, by decide, by decide⟩,
    (parse_roundTrip 7).2.2.2.2.1 "7" (by decide) (by decide) (by decide)⟩

/-- Pointwise behaviour of the assignment loop: the user at offset `i` of the
walked list receives the name of the sorted pod at block index
`(start + i) / cap` when that pod exists, and is left as-is otherwise. -/
theorem assignFrom_getElem? (sorted : List Pod) (cap : ℕ) :
    ∀ (l : List UserSession) (start i : ℕ),
      (assignFrom sorted cap start l)[i]? = l[i]?.map (fun u =>
        match sorted[(start + i) / cap]? with
        | some p => ⟨u.id, u.type, u.startTime, u.lastActivity, some p.name⟩
        | none => u) := by
  intro l
  induction l with
  | nil => intro start i; simp [assignFrom]
  | cons u rest ih =>
    intro start i
    cases i with
    | zero => simp [assignFrom]
    | succ j =>
      simp only [assignFrom, List.getElem?_cons_succ, ih (start + 1) j]
      have harith : start + 1 + j = start + (j + 1) := by omega
      rw [harith]

/-- C7: `distributeUsers` — with no pods every `podName` ends unset; with
`P > 0` pods the user at index `i` (walked in input order) is assigned the
name of the pod at index `i / (⌊users/P⌋ + 1)` of the stable cpu-ascending
sort when that index is in range and is left unassigned otherwise; and every
assigned `podName` names a pod of the given pod set. -/
theorem distributeUsers_spec :
    ∀ (users : List UserSession) (pods : List Pod),
      (pods = [] → ∀ u ∈ distributeUsers users pods, u.podName = none) ∧
      (pods ≠ [] →
        ∀ (i : ℕ) (u0 : UserSession), users[i]? = some u0 →
          ∃ u, (distributeUsers users pods)[i]? = some u ∧
            u.id = u0.id ∧ u.type = u0.type ∧
            (∀ p : Pod,
              (sortPodsByCpu pods)[i / (users.length / pods.length + 1)]? = some p →
                u.podName = some p.name) ∧
            ((sortPodsByCpu pods)[i / (users.length / pods.length + 1)]? = none →
              u.podName = none)) ∧
      (∀ u ∈ distributeUsers users pods, ∀ nm, u.podName = some nm →
        nm ∈ pods.map Pod.name) := by
  intro users pods
  refine ⟨?_, ?_, ?_⟩
  · intro hpods u hu
    subst hpods
    simp only [distributeUsers, List.isEmpty_nil, if_true, List.mem_map] at hu
    obtain ⟨u0, _, rfl⟩ := hu
    rfl
  · intro hpods i u0 hu0
    have hne : pods.isEmpty = false := by
      cases pods with
      | nil => exact absurd rfl hpods
      | cons p ps => rfl
    simp only [distributeUsers, hne, Bool.false_eq_true, if_false]
    rw [assignFrom_getElem?]
    simp only [List.getElem?_map, hu0, Option.map_map, Option.map_some', Nat.zero_add]
    rcases hQ : (sortPodsByCpu pods)[i / (users.length / pods.length + 1)]? with _ | p
    · refine ⟨_, rfl, rfl, rfl, ?_, fun _ => rfl⟩
      intro p hp
      exact nomatch hp
    · refine ⟨_, rfl, rfl, rfl, ?_, ?_⟩
      · intro q hq
        cases Option.some.inj hq
        rfl
      · intro hnone
        exact nomatch hnone
  · intro u hu nm hnm
    by_cases hp : pods.isEmpty
    · have hpods : pods = [] := List.isEmpty_iff.mp hp
      subst hpods
      simp only [distributeUsers, List.isEmpty_nil, if_true, List.mem_map] at hu
      obtain ⟨u0, _, rfl⟩ := hu
      cases hnm
    · have hne : pods.isEmpty = false := Bool.not_eq_true _ ▸ by simpa using hp
      simp only [distributeUsers, hne, Bool.false_eq_true, if_false] at hu
      obtain ⟨i, hi⟩ := List.mem_iff_getElem?.mp hu
      rw [assignFrom_getElem?] at hi
      obtain ⟨u1, hu1, hfu⟩ := Option.map_eq_some'.mp hi
      obtain ⟨u2, hu2, hclear⟩ := Option.map_eq_some'.mp (by
        simpa only [List.getElem?_map] using hu1)
      rcases hQ : (sortPodsByCpu pods)[(0 + i) / (users.length / pods.length + 1)]? with _ | p
      · rw [hQ] at hfu
        subst hfu
        rw [← hclear] at hnm
        cases hnm
      · rw [hQ] at hfu
        subst hfu
        simp only at hnm
        cases hnm
        have hmemSorted : p ∈ sortPodsByCpu pods := List.getElem?_mem hQ
        have hmem : p ∈ pods := (List.perm_insertionSort _ pods).mem_iff.mp hmemSorted
        exact List.mem_map.mpr ⟨p, hmem, rfl⟩

/-- C7 witness: two users, one pod — user 0 is assigned the single pod's
name via block index `0 / (⌊2/1⌋ + 1) = 0`. -/
theorem distributeUsers_spec_witness :
    (([⟨"p1", "1", "1Gi", none⟩] : List Pod) ≠ []) ∧
    ([⟨"u1", "medium", 0, 0, none⟩, ⟨"u2", "light", 0, 0, some "zz"⟩] :
        List UserSession)[0]? = some ⟨"u1", "medium", 0, 0, none⟩ ∧
    ∃ u, (distributeUsers [⟨"u1", "medium", 0, 0, none⟩, ⟨"u2", "light", 0, 0, some "zz"⟩]
          [⟨"p1", "1", "1Gi", none⟩])[0]? = some u ∧
      u.id = "u1" ∧ u.type = "medium" ∧
      (∀ p : Pod, (sortPodsByCpu [⟨"p1", "1", "1Gi", none⟩])[0 / (2 / 1 + 1)]? = some p →
        u.podName = some p.name) ∧
      ((sortPodsByCpu [⟨"p1", "1", "1Gi", none⟩])[0 / (2 / 1 + 1)]? = none →
        u.podName = none) :=
  ⟨by decide, rfl,
    (distributeUsers_spec [⟨"u1", "medium", 0, 0, none⟩, ⟨"u2", "light", 0, 0, some "zz"⟩]
        [⟨"p1", "1", "1Gi", none⟩]).2.1 (by decide) 0 ⟨"u1", "medium", 0, 0, none⟩ rfl⟩
